import Mathlib

/-!
# Verification of `llvm-profparser` (instrumentation-profile parsing and merging)

Shallow embedding of `src/instrumentation_profile/mod.rs` together with the
parts of the profile data model, format detection, merging and text
round-tripping that the specification describes.  Byte buffers are modelled as
`List Nat` (each entry a `u8` value), `u64` values as `Nat` (with explicit
`2 ^ 64` bounds where overflow matters), and Rust's `io::Result` /
nom `IResult` as explicit sum types.
-/

namespace LlvmProfparser

/-- `u64::MAX`. -/
def U64_MAX : Nat := 2 ^ 64 - 1

/-! ## Data model

Modelled from the spec: the crate's `types` module is not among the provided
sources.  §3 of the spec describes the root `Profile` as
`version + symtab + records`, a `FunctionRecord` as
`(name, fn_hash, counters, value_sites)` where `value_sites` is an array
indexed by value kind of sequences of sites, a site being a list of
`(value, count)` pairs. -/

/-- Modelled from the spec: a function record
`{name, fn-hash, counters[], value-sites[]}` (§3 of the spec; the crate's
`NamedInstrProfRecord` type is outside the provided sources). -/
structure NamedInstrProfRecord where
  name : String
  hash : Nat
  counters : List Nat
  valueSites : List (List (List (Nat × Nat)))
deriving DecidableEq

/-- Modelled from the spec: the root profile container
`version + symtab + records` (§3; the crate's `InstrumentationProfile` type is
outside the provided sources).  The symbol table is the association list of
`(MD5-hash, name)` pairs. -/
structure InstrumentationProfile where
  version : Nat
  symtab : List (Nat × String)
  records : List NamedInstrProfRecord
deriving DecidableEq

/-- Modelled from the spec: bit 56 of `version` is the IR-level flag (§6). -/
def InstrumentationProfile.is_ir_level_profile (p : InstrumentationProfile) : Bool :=
  p.version.testBit 56

/-- Modelled from the spec: bit 57 of `version` is the context-sensitive
(CSIR) flag (§6). -/
def InstrumentationProfile.has_csir_level_profile (p : InstrumentationProfile) : Bool :=
  p.version.testBit 57

/-! ## nom results and reader interface

`ParseResult<'a, T> = IResult<&'a [u8], T, VerboseError<&'a [u8]>>`
(`mod.rs` line 18).  A nom error is either a recoverable `Error`, a
`Failure`, or `Incomplete`; the `VerboseError` payload is modelled as the
list of `Debug`-formatted error kinds that `parse_bytes` joins into its
message. -/

/-- nom's `Err` type: `Error`, `Failure` (each with a `VerboseError`,
modelled as its list of formatted error kinds) or `Incomplete`. -/
inductive NomErr where
  | error (msgs : List String)
  | failure (msgs : List String)
  | incomplete
deriving DecidableEq

/-- A reader in the sense of the `InstrProfReader` trait (`mod.rs` lines
64-73): a format-detection predicate and a full-buffer parse returning the
unparsed remainder together with the profile. -/
structure InstrProfReader where
  hasFormat : List Nat → Bool
  parseBytes : List Nat → Except NomErr (List Nat × InstrumentationProfile)

/-- The error payload of the `io::Result` returned by `parse_bytes`:
every branch constructs `io::Error::new(ErrorKind::Other, msg)` with one of
three message shapes (`mod.rs` lines 41-44 and 55-60). -/
inductive IoError where
  | unknownFormat
  | parserError (msgs : List String)
  | parserFailure (msgs : List String)
  | ioSys (msg : String)
deriving DecidableEq

/-- Outcome of running `parse_bytes`: an `Ok` profile, an `Err`, or the
`unreachable!` panic in the `Err::Incomplete` arm (`mod.rs` line 58). -/
inductive ParseOutcome where
  | ok (p : InstrumentationProfile)
  | err (e : IoError)
  | panicked
deriving DecidableEq

/-- The tail of `parse_bytes` (`mod.rs` lines 46-61):
`nom_res.map(|(_bytes, res)| res)` and the error mapping, with the
`Err::Incomplete` arm hitting `unreachable!`. -/
def map_nom_result (r : Except NomErr (List Nat × InstrumentationProfile)) : ParseOutcome :=
  match r with
  | .ok (_, res) => .ok res
  | .error (.error e) => .err (.parserError e)
  | .error (.failure e) => .err (.parserFailure e)
  | .error .incomplete => .panicked

/-- `parse_bytes` (`mod.rs` lines 31-62): try the four readers in the fixed
order indexed, raw64, raw32, text; return `UnknownFormat` when none
accepts; otherwise map the accepted reader's nom result.  The four concrete
reader types live outside the provided sources, so the dispatch is stated
over arbitrary readers. -/
def parse_bytes (indexed raw64 raw32 text : InstrProfReader) (data : List Nat) :
    ParseOutcome :=
  if indexed.hasFormat data then map_nom_result (indexed.parseBytes data)
  else if raw64.hasFormat data then map_nom_result (raw64.parseBytes data)
  else if raw32.hasFormat data then map_nom_result (raw32.parseBytes data)
  else if text.hasFormat data then map_nom_result (text.parseBytes data)
  else .err .unknownFormat

/-- `parse` (`mod.rs` lines 24-29): open the file, read it to the end and
hand the whole buffer to `parse_bytes`; an I/O failure propagates through
`?`.  The filesystem is modelled as an oracle from paths to contents or an
I/O error message. -/
def parse (fs : String → Except String (List Nat))
    (indexed raw64 raw32 text : InstrProfReader) (filename : String) : ParseOutcome :=
  match fs filename with
  | .error e => .err (.ioSys e)
  | .ok buffer => parse_bytes indexed raw64 raw32 text buffer

/-- The four on-disk formats. -/
inductive ProfFormat where
  | indexed
  | raw64
  | raw32
  | text
deriving DecidableEq

/-- The format-selection logic of `parse_bytes` as a standalone function:
the same if-chain, returning which reader is chosen. -/
def detect_format (hIndexed hRaw64 hRaw32 hText : List Nat → Bool)
    (data : List Nat) : Option ProfFormat :=
  if hIndexed data then some .indexed
  else if hRaw64 data then some .raw64
  else if hRaw32 data then some .raw32
  else if hText data then some .text
  else none

/-- Select one of the four readers by format tag. -/
def reader_for (indexed raw64 raw32 text : InstrProfReader) :
    ProfFormat → InstrProfReader
  | .indexed => indexed
  | .raw64 => raw64
  | .raw32 => raw32
  | .text => text

theorem parse_bytes_eq_detect (indexed raw64 raw32 text : InstrProfReader)
    (data : List Nat) :
    parse_bytes indexed raw64 raw32 text data =
      match detect_format indexed.hasFormat raw64.hasFormat raw32.hasFormat
          text.hasFormat data with
      | some f => map_nom_result ((reader_for indexed raw64 raw32 text f).parseBytes data)
      | none => .err .unknownFormat := by
  unfold parse_bytes detect_format
  by_cases h1 : indexed.hasFormat data = true <;>
    by_cases h2 : raw64.hasFormat data = true <;>
      by_cases h3 : raw32.hasFormat data = true <;>
        by_cases h4 : text.hasFormat data = true <;>
          simp [h1, h2, h3, h4, reader_for]

/-! ## Padding -/

/-- `get_num_padding_bytes` (`mod.rs` lines 20-22):
`7 & (8 - (len % 8) as u8)`.  The cast `(len % 8) as u8` is `% 256`, the
subtraction happens in `u8` (in range, since `len % 8 ≤ 7`), and the result
is masked with `7`. -/
def get_num_padding_bytes (len : Nat) : Nat :=
  7 &&& ((8 - (len % 8) % 256) % 256)

/-! ## Format detection

Modelled from the spec: the readers' `has_format` implementations are outside
the provided sources.  §6 gives the magic numbers as the little-endian `u64`
read of the first 8 bytes, §4.5 adds byte-reversed variants for the raw
formats, and §4.9 gives the text heuristic. -/

/-- Little-endian `u64` read of the first 8 bytes; `none` when the buffer is
shorter than 8 bytes. -/
def read_u64_le (data : List Nat) : Option Nat :=
  match data with
  | b0 :: b1 :: b2 :: b3 :: b4 :: b5 :: b6 :: b7 :: _ =>
      some (b0 + 2 ^ 8 * b1 + 2 ^ 16 * b2 + 2 ^ 24 * b3 +
        2 ^ 32 * b4 + 2 ^ 40 * b5 + 2 ^ 48 * b6 + 2 ^ 56 * b7)
  | _ => none

/-- Modelled from the spec: indexed-format detection, magic
`0x8169666f72706cff` (§6). -/
def indexed_has_format (data : List Nat) : Bool :=
  read_u64_le data == some 0x8169666f72706cff

/-- Modelled from the spec: raw-64 detection, native magic
`0xff6c70726f667281` or the byte-reversed `0x8172666f72706cff` (§6, §4.5). -/
def raw64_has_format (data : List Nat) : Bool :=
  read_u64_le data == some 0xff6c70726f667281 ||
    read_u64_le data == some 0x8172666f72706cff

/-- Modelled from the spec: raw-32 detection, native magic
`0xff6c70726f667e81` (§6) or its byte-reversed form `0x817e666f72706cff`
(§4.5: both endiannesses are detected). -/
def raw32_has_format (data : List Nat) : Bool :=
  read_u64_le data == some 0xff6c70726f667e81 ||
    read_u64_le data == some 0x817e666f72706cff

/-- ASCII printable and not a control byte (and not the space skipped by the
detection): `0x21 ≤ b ≤ 0x7e`. -/
def is_text_start_byte (b : Nat) : Bool :=
  0x21 ≤ b && b ≤ 0x7e

/-- The first byte of the buffer that is not an ASCII space. -/
def first_non_space : List Nat → Option Nat
  | [] => none
  | b :: rest => if b == 0x20 then first_non_space rest else some b

/-- Modelled from the spec: text detection — the first non-space byte is
ASCII printable and not a control byte (§4.9). -/
def text_has_format (data : List Nat) : Bool :=
  (first_non_space data).any is_text_start_byte

/-! ## Merger

Modelled from the spec: the merge engine is outside the provided sources.
§4.8 describes the algorithm: seed with the first profile, check flag
compatibility, union symbol tables keeping the first name on a hash
collision, and fold records keyed by `(name, fn_hash)` with saturating
counter addition and site-by-site value merging; overflow is silent but
recorded in a per-profile overflow flag. -/

/-- Modelled from the spec: `sat_add` — `u64` saturating addition together
with the overflow indicator recorded in the merge's overflow flag (§4.8). -/
def sat_add (a b : Nat) : Nat × Bool :=
  if U64_MAX < a + b then (U64_MAX, true) else (a + b, false)

/-- Pairwise saturating addition of two counter lists of equal length (the
caller has already rejected a length mismatch); the flag collects whether
any position overflowed. -/
def merge_counter_lists : List Nat → List Nat → List Nat × Bool
  | x :: xs, y :: ys =>
      let p := sat_add x y
      let rest := merge_counter_lists xs ys
      (p.1 :: rest.1, p.2 || rest.2)
  | _, _ => ([], false)

/-- Merge one incoming `(value, count)` pair into a value site: increment the
matching entry saturating, or append a new entry when the value is absent
(§4.8 step 3). -/
def merge_site_entry : List (Nat × Nat) → Nat × Nat → List (Nat × Nat) × Bool
  | [], vc => ([vc], false)
  | (v0, c0) :: rest, (v, c) =>
      if v0 == v then
        let p := sat_add c0 c
        ((v0, p.1) :: rest, p.2)
      else
        let r := merge_site_entry rest (v, c)
        ((v0, c0) :: r.1, r.2)

/-- Merge an incoming value site into an output site entry by entry. -/
def merge_site (out incoming : List (Nat × Nat)) : List (Nat × Nat) × Bool :=
  incoming.foldl
    (fun acc vc =>
      let r := merge_site_entry acc.1 vc
      (r.1, acc.2 || r.2))
    (out, false)

/-- Merge the site lists of one value kind site-by-site; a site present on
only one side is kept as is. -/
def merge_sites : List (List (Nat × Nat)) → List (List (Nat × Nat)) →
    List (List (Nat × Nat)) × Bool
  | [], ys => (ys, false)
  | x :: xs, [] => (x :: xs, false)
  | x :: xs, y :: ys =>
      let s := merge_site x y
      let rest := merge_sites xs ys
      (s.1 :: rest.1, s.2 || rest.2)

/-- Merge value-site data kind-by-kind (§4.8 step 3). -/
def merge_kinds : List (List (List (Nat × Nat))) → List (List (List (Nat × Nat))) →
    List (List (List (Nat × Nat))) × Bool
  | [], ys => (ys, false)
  | x :: xs, [] => (x :: xs, false)
  | x :: xs, y :: ys =>
      let k := merge_sites x y
      let rest := merge_kinds xs ys
      (k.1 :: rest.1, k.2 || rest.2)

/-- Merge failures (§4.8, §7): a counter-count mismatch is fatal, as is an
IR/CSIR flag incompatibility; an empty input list has nothing to merge. -/
inductive MergeError where
  | countMismatch (function : String)
  | incompatibleProfiles
  | emptyInput
deriving DecidableEq

/-- Merge an incoming record into the output record with the same
`(name, fn_hash)` key: a `num_counters` mismatch is a hard `CountMismatch`,
otherwise counters are saturating-added pairwise and value sites merged
kind-by-kind (§4.8 step 3). -/
def merge_record (out incoming : NamedInstrProfRecord) :
    Except MergeError (NamedInstrProfRecord × Bool) :=
  if out.counters.length ≠ incoming.counters.length then
    .error (.countMismatch out.name)
  else
    let cs := merge_counter_lists out.counters incoming.counters
    let vs := merge_kinds out.valueSites incoming.valueSites
    .ok ({ out with counters := cs.1, valueSites := vs.1 }, cs.2 || vs.2)

/-- Fold one incoming record into the output record list: merge into the
record with the same `(name, fn_hash)` key, or append a deep copy when the
key is absent (§4.8 step 3); insertion order is preserved. -/
def insert_record (records : List NamedInstrProfRecord) (r : NamedInstrProfRecord) :
    Except MergeError (List NamedInstrProfRecord × Bool) :=
  match records with
  | [] => .ok ([r], false)
  | r0 :: rest =>
      if r0.name == r.name && r0.hash == r.hash then
        (merge_record r0 r).map (fun m => (m.1 :: rest, m.2))
      else
        (insert_record rest r).map (fun m => (r0 :: m.1, m.2))

/-- Insert one symbol-table entry: on a hash collision keep the first entry
(§4.8 step 2), otherwise append. -/
def symtab_insert (st : List (Nat × String)) (entry : Nat × String) :
    List (Nat × String) :=
  if st.any (fun e => e.1 == entry.1) then st else st ++ [entry]

/-- Union of symbol tables: insert every entry of the incoming table. -/
def symtab_union (st incoming : List (Nat × String)) : List (Nat × String) :=
  incoming.foldl symtab_insert st

/-- Modelled from the spec: IR-level and CSIR-level bits of the two versions
must match for the profiles to be mergeable (§4.8 step 1). -/
def compatible_flags (v1 v2 : Nat) : Bool :=
  (v1.testBit 56 == v2.testBit 56) && (v1.testBit 57 == v2.testBit 57)

/-- One step of the record fold: insert a record and accumulate the
overflow flag. -/
def fold_insert (st : List NamedInstrProfRecord × Bool) (r : NamedInstrProfRecord) :
    Except MergeError (List NamedInstrProfRecord × Bool) :=
  (insert_record st.1 r).map (fun m => (m.1, st.2 || m.2))

/-- Merge one further profile into the accumulated output: check flag
compatibility, union the symbol tables, and fold every incoming record in;
the Bool accumulates the overflow flag. -/
def merge_profile_into (acc : InstrumentationProfile × Bool)
    (p : InstrumentationProfile) : Except MergeError (InstrumentationProfile × Bool) :=
  if ¬ compatible_flags acc.1.version p.version then .error .incompatibleProfiles
  else
    (p.records.foldlM fold_insert (acc.1.records, false)).map
      (fun m =>
        ({ version := acc.1.version,
           symtab := symtab_union acc.1.symtab p.symtab,
           records := m.1 }, acc.2 || m.2))

/-- Modelled from the spec: merge a list of profiles (§4.8) — seed the
output with the first profile, then fold the remaining profiles in.  Returns
the merged profile together with the overflow flag. -/
def merge_profiles : List InstrumentationProfile →
    Except MergeError (InstrumentationProfile × Bool)
  | [] => .error .emptyInput
  | p :: rest => rest.foldlM merge_profile_into (p, false)

/-- Well-formed profile: every counter and every value-site count is a
genuine `u64`, i.e. at most `U64_MAX`. -/
def profile_wf (p : InstrumentationProfile) : Prop :=
  ∀ r ∈ p.records, ∀ c ∈ r.counters, c ≤ U64_MAX

/-! ## Text rendering and re-parsing

Modelled from the spec: the text writer and text reader are outside the
provided sources.  §4.7 gives the line grammar (header directives, then per
record: name, hash, counter count, counters, optional value-profile section,
blank separator).  The model works at line granularity: a `TextLine` is one
already-lexed line of the `.proftext` output. -/

/-- One line of a text profile: a `:`-directive, a function-name line, a
line holding one number, a `<kind> <num-sites>` line holding two numbers, a
`<value>:<count>` pair line, or a blank line. -/
inductive TextLine where
  | directive (d : String)
  | fname (s : String)
  | num (n : Nat)
  | num2 (a b : Nat)
  | pair (v c : Nat)
  | blank
deriving DecidableEq

/-- Write one value site: its number of values, then its pairs (§4.7). -/
def write_site (s : List (Nat × Nat)) : List TextLine :=
  TextLine.num s.length :: s.map (fun p => TextLine.pair p.1 p.2)

/-- Write the value-site lists for the kinds `k, k+1, ...`: each kind
contributes a `<kind> <num-sites>` line followed by its sites. -/
def write_kinds (k : Nat) : List (List (List (Nat × Nat))) → List TextLine
  | [] => []
  | sites :: rest =>
      (TextLine.num2 k sites.length :: (sites.map write_site).flatten) ++
        write_kinds (k + 1) rest

/-- Write one record: name, hash, counter count, counters, value-profile
section, and the blank separator (§4.7). -/
def write_record (r : NamedInstrProfRecord) : List TextLine :=
  TextLine.fname r.name :: TextLine.num r.hash ::
    TextLine.num r.counters.length :: (r.counters.map TextLine.num) ++
    (TextLine.num r.valueSites.length :: write_kinds 0 r.valueSites) ++
    [TextLine.blank]

/-- Write the header directives for the version's feature bits: `:ir`,
`:csir`, `:entry_first` (§4.7, §6). -/
def write_directives (version : Nat) : List TextLine :=
  (if version.testBit 56 then [TextLine.directive ":ir"] else []) ++
    (if version.testBit 57 then [TextLine.directive ":csir"] else []) ++
      (if version.testBit 58 then [TextLine.directive ":entry_first"] else [])

/-- Modelled from the spec: text rendering of a profile — the directives for
the version flags, then every record in order (§4.7). -/
def write_text (p : InstrumentationProfile) : List TextLine :=
  write_directives p.version ++ (p.records.map write_record).flatten

/-- Text-reader failures (§4.7, §7). -/
inductive TextError where
  | misplacedDirective
  | badTextLine
deriving DecidableEq

/-- Apply one header directive to the version flags: `:ir` sets bit 56,
`:csir` bit 57, `:entry_first` bit 58 (§4.7, §6). -/
def apply_directive (d : String) (v : Nat) : Option Nat :=
  if d = ":ir" then some (v ||| 2 ^ 56)
  else if d = ":csir" then some (v ||| 2 ^ 57)
  else if d = ":entry_first" then some (v ||| 2 ^ 58)
  else none

/-- Consume the leading directives, folding their flag bits into the
version; stops at the first non-directive line. -/
def parse_directives : List TextLine → Nat → Except TextError (Nat × List TextLine)
  | TextLine.directive d :: rest, v =>
      match apply_directive d v with
      | some v' => parse_directives rest v'
      | none => .error .badTextLine
  | ls, v => .ok (v, ls)

/-- Read `n` single-number lines. -/
def parse_nums : Nat → List TextLine → Except TextError (List Nat × List TextLine)
  | 0, ls => .ok ([], ls)
  | n + 1, TextLine.num c :: ls =>
      (parse_nums n ls).map (fun m => (c :: m.1, m.2))
  | _ + 1, _ => .error .badTextLine

/-- Read `n` `<value>:<count>` pair lines. -/
def parse_pairs : Nat → List TextLine → Except TextError (List (Nat × Nat) × List TextLine)
  | 0, ls => .ok ([], ls)
  | n + 1, TextLine.pair v c :: ls =>
      (parse_pairs n ls).map (fun m => ((v, c) :: m.1, m.2))
  | _ + 1, _ => .error .badTextLine

/-- Read one value site: its number of values, then that many pairs. -/
def parse_site : List TextLine → Except TextError (List (Nat × Nat) × List TextLine)
  | TextLine.num n :: ls => parse_pairs n ls
  | _ => .error .badTextLine

/-- Read `n` value sites. -/
def parse_sites : Nat → List TextLine →
    Except TextError (List (List (Nat × Nat)) × List TextLine)
  | 0, ls => .ok ([], ls)
  | n + 1, ls =>
      match parse_site ls with
      | .error e => .error e
      | .ok (s, rest) => (parse_sites n rest).map (fun m => (s :: m.1, m.2))

/-- Read `n` value kinds starting at kind index `k`: each is a
`<kind> <num-sites>` line followed by its sites.  The kinds are written
densely in index order, so the index is checked. -/
def parse_kinds : Nat → Nat → List TextLine →
    Except TextError (List (List (List (Nat × Nat))) × List TextLine)
  | 0, _, ls => .ok ([], ls)
  | n + 1, k, TextLine.num2 k' ns :: ls =>
      if k' == k then
        match parse_sites ns ls with
        | .error e => .error e
        | .ok (sites, rest) =>
            (parse_kinds n (k + 1) rest).map (fun m => (sites :: m.1, m.2))
      else .error .badTextLine
  | _ + 1, _, _ => .error .badTextLine

/-- Read one record: name, hash, counter count, counters, value-profile
section, then a blank line or end of input (§4.7). -/
def parse_record : List TextLine → Except TextError (NamedInstrProfRecord × List TextLine)
  | TextLine.fname s :: TextLine.num h :: TextLine.num nc :: ls =>
      match parse_nums nc ls with
      | .error e => .error e
      | .ok (cs, rest) =>
          match rest with
          | TextLine.num nk :: rest2 =>
              match parse_kinds nk 0 rest2 with
              | .error e => .error e
              | .ok (vs, rest3) =>
                  match rest3 with
                  | [] => .ok (⟨s, h, cs, vs⟩, [])
                  | TextLine.blank :: rest4 => .ok (⟨s, h, cs, vs⟩, rest4)
                  | _ => .error .badTextLine
          | _ => .error .badTextLine
  | _ => .error .badTextLine

/-- Read the records after the header: blank lines between records are
skipped, a directive here is a `MisplacedDirective` failure, and `fuel`
bounds the number of lines consumed (one unit per record or stray blank
suffices). -/
def parse_records : Nat → List TextLine →
    Except TextError (List NamedInstrProfRecord)
  | _, [] => .ok []
  | 0, _ => .error .badTextLine
  | fuel + 1, TextLine.blank :: rest => parse_records fuel rest
  | _ + 1, TextLine.directive _ :: _ => .error .misplacedDirective
  | fuel + 1, ls =>
      match parse_record ls with
      | .error e => .error e
      | .ok (r, rest) => (parse_records fuel rest).map (fun rs => r :: rs)

/-- Modelled from the spec: parse a text profile — header directives set the
version flag bits, then the records follow (§4.7).  The symbol table is
rebuilt from the record names through the supplied `hash` oracle (the MD5
hash of §4.2), mirroring invariant I1. -/
def parse_text (hash : String → Nat) (ls : List TextLine) :
    Except TextError InstrumentationProfile :=
  match parse_directives ls 0 with
  | .error e => .error e
  | .ok (v, rest) =>
      (parse_records (rest.length + 1) rest).map
        (fun rs =>
          { version := v,
            symtab := rs.map (fun r => (hash r.name, r.name)),
            records := rs })

/-! ## Concrete instances used by the closed-form corollaries -/

/-- An arbitrary concrete profile. -/
def sample_profile : InstrumentationProfile :=
  { version := 0, symtab := [], records := [] }

/-- A concrete indexed reader: the spec-modelled magic detection and a parse
that consumes the whole buffer. -/
def indexed_reader : InstrProfReader :=
  { hasFormat := indexed_has_format, parseBytes := fun _ => .ok ([], sample_profile) }

/-- A concrete raw-64 reader. -/
def raw64_reader : InstrProfReader :=
  { hasFormat := raw64_has_format, parseBytes := fun _ => .ok ([], sample_profile) }

/-- A concrete raw-32 reader. -/
def raw32_reader : InstrProfReader :=
  { hasFormat := raw32_has_format, parseBytes := fun _ => .ok ([], sample_profile) }

/-- A concrete text reader. -/
def text_reader : InstrProfReader :=
  { hasFormat := text_has_format, parseBytes := fun _ => .ok ([], sample_profile) }

/-- A concrete text reader that leaves a trailing byte unparsed. -/
def leftover_text_reader : InstrProfReader :=
  { hasFormat := text_has_format, parseBytes := fun _ => .ok ([0x0a], sample_profile) }

/-- The 8 magic bytes of an indexed profile, little-endian
`0x8169666f72706cff`. -/
def indexed_magic_bytes : List Nat :=
  [0xff, 0x6c, 0x70, 0x72, 0x6f, 0x66, 0x69, 0x81]

/-! ## Claims -/

/-- C1: `parse_bytes` tries the four formats in the fixed order indexed,
raw64, raw32, text; it returns the (mapped) result of the first reader whose
`has_format` accepts the input, and a later reader is never consulted once
an earlier one accepts (the result does not depend on the later readers). -/
theorem C1_parse_bytes_first_accepting_reader
    (i r6 r3 t i' r6' r3' t' : InstrProfReader) (data : List Nat) :
    (i.hasFormat data = true →
      parse_bytes i r6 r3 t data = map_nom_result (i.parseBytes data) ∧
      parse_bytes i r6 r3 t data = parse_bytes i r6' r3' t' data) ∧
    (i.hasFormat data = false → r6.hasFormat data = true →
      parse_bytes i r6 r3 t data = map_nom_result (r6.parseBytes data) ∧
      parse_bytes i r6 r3 t data = parse_bytes i r6 r3' t' data) ∧
    (i.hasFormat data = false → r6.hasFormat data = false →
      r3.hasFormat data = true →
      parse_bytes i r6 r3 t data = map_nom_result (r3.parseBytes data) ∧
      parse_bytes i r6 r3 t data = parse_bytes i r6 r3 t' data) ∧
    (i.hasFormat data = false → r6.hasFormat data = false →
      r3.hasFormat data = false → t.hasFormat data = true →
      parse_bytes i r6 r3 t data = map_nom_result (t.parseBytes data)) := by
  refine ⟨fun h1 => ?_, fun h1 h2 => ?_, fun h1 h2 h3 => ?_, fun h1 h2 h3 h4 => ?_⟩ <;>
    simp [parse_bytes, h1]
  · simp [h2]
  · simp [h2, h3]
  · simp [h2, h3, h4]

/-- C1 witness: on the concrete indexed magic bytes the indexed reader is
chosen and the other three readers are irrelevant. -/
theorem C1_witness :
    parse_bytes indexed_reader raw64_reader raw32_reader text_reader
        indexed_magic_bytes =
      map_nom_result (indexed_reader.parseBytes indexed_magic_bytes) ∧
    parse_bytes indexed_reader raw64_reader raw32_reader text_reader
        indexed_magic_bytes =
      parse_bytes indexed_reader text_reader leftover_text_reader raw32_reader
        indexed_magic_bytes :=
  (C1_parse_bytes_first_accepting_reader indexed_reader raw64_reader raw32_reader
    text_reader indexed_reader text_reader leftover_text_reader raw32_reader
    indexed_magic_bytes).1 (by decide)

/-- C2: `get_num_padding_bytes len` equals `7 &&& (8 - len % 8)`, is at most
7, and pads `len` up to the next multiple of 8. -/
theorem C2_get_num_padding_bytes_aligns (len : Nat) (h : len < 2 ^ 64) :
    get_num_padding_bytes len = 7 &&& (8 - len % 8) ∧
    get_num_padding_bytes len ≤ 7 ∧
    (len + get_num_padding_bytes len) % 8 = 0 := by
  have e8 : (7 : Nat) &&& 8 = 0 := by decide
  have e7 : (7 : Nat) &&& 7 = 7 := by decide
  have e6 : (7 : Nat) &&& 6 = 6 := by decide
  have e5 : (7 : Nat) &&& 5 = 5 := by decide
  have e4 : (7 : Nat) &&& 4 = 4 := by decide
  have e3 : (7 : Nat) &&& 3 = 3 := by decide
  have e2 : (7 : Nat) &&& 2 = 2 := by decide
  have e1 : (7 : Nat) &&& 1 = 1 := by decide
  have hr : len % 8 = 0 ∨ len % 8 = 1 ∨ len % 8 = 2 ∨ len % 8 = 3 ∨
      len % 8 = 4 ∨ len % 8 = 5 ∨ len % 8 = 6 ∨ len % 8 = 7 := by omega
  rcases hr with h8 | h8 | h8 | h8 | h8 | h8 | h8 | h8 <;>
    refine ⟨?_, ?_, ?_⟩ <;>
      simp [get_num_padding_bytes, h8, e8, e7, e6, e5, e4, e3, e2, e1] <;> omega

/-- C2 witness at `len = 13`. -/
theorem C2_witness :
    get_num_padding_bytes 13 = 7 &&& (8 - 13 % 8) ∧
    get_num_padding_bytes 13 ≤ 7 ∧
    (13 + get_num_padding_bytes 13) % 8 = 0 :=
  C2_get_num_padding_bytes_aligns 13 (by norm_num)

theorem map_nom_result_ne_unknownFormat
    (r : Except NomErr (List Nat × InstrumentationProfile)) :
    map_nom_result r ≠ .err .unknownFormat := by
  rcases r with e | a
  · cases e <;> simp [map_nom_result]
  · obtain ⟨rem, res⟩ := a
    simp [map_nom_result]

/-- C3: `parse_bytes` returns the `UnknownFormat` error exactly when all
four format detections reject the input. -/
theorem C3_unknown_format_iff_all_reject
    (i r6 r3 t : InstrProfReader) (data : List Nat) :
    parse_bytes i r6 r3 t data = .err .unknownFormat ↔
      (i.hasFormat data = false ∧ r6.hasFormat data = false ∧
       r3.hasFormat data = false ∧ t.hasFormat data = false) := by
  unfold parse_bytes
  by_cases h1 : i.hasFormat data = true <;>
    by_cases h2 : r6.hasFormat data = true <;>
      by_cases h3 : r3.hasFormat data = true <;>
        by_cases h4 : t.hasFormat data = true <;>
          simp [h1, h2, h3, h4, map_nom_result_ne_unknownFormat]

theorem map_nom_result_total (r : Except NomErr (List Nat × InstrumentationProfile))
    (h : r ≠ .error .incomplete) :
    (∃ p, map_nom_result r = .ok p) ∨ (∃ e, map_nom_result r = .err e) := by
  rcases r with e | a
  · cases e with
    | error m => exact .inr ⟨.parserError m, rfl⟩
    | failure m => exact .inr ⟨.parserFailure m, rfl⟩
    | incomplete => exact absurd rfl h
  · obtain ⟨rem, res⟩ := a
    exact .inl ⟨res, rfl⟩

/-- C4: when no format reader ever returns nom's incomplete-input result,
`parse_bytes` never reaches the `unreachable!` panic of the `Incomplete`
arm: it always returns a profile or a structured error. -/
theorem C4_parse_bytes_never_panics (i r6 r3 t : InstrProfReader) (data : List Nat)
    (hi : ∀ d, i.parseBytes d ≠ .error .incomplete)
    (h6 : ∀ d, r6.parseBytes d ≠ .error .incomplete)
    (h3 : ∀ d, r3.parseBytes d ≠ .error .incomplete)
    (ht : ∀ d, t.parseBytes d ≠ .error .incomplete) :
    parse_bytes i r6 r3 t data ≠ .panicked ∧
    ((∃ p, parse_bytes i r6 r3 t data = .ok p) ∨
      (∃ e, parse_bytes i r6 r3 t data = .err e)) := by
  have key : ∀ (r : Except NomErr (List Nat × InstrumentationProfile)),
      r ≠ .error .incomplete → map_nom_result r ≠ .panicked := by
    intro r h
    rcases map_nom_result_total r h with ⟨p, hp⟩ | ⟨e, he⟩
    · simp [hp]
    · simp [he]
  unfold parse_bytes
  split_ifs with c1 c2 c3 c4
  · exact ⟨key _ (hi data), map_nom_result_total _ (hi data)⟩
  · exact ⟨key _ (h6 data), map_nom_result_total _ (h6 data)⟩
  · exact ⟨key _ (h3 data), map_nom_result_total _ (h3 data)⟩
  · exact ⟨key _ (ht data), map_nom_result_total _ (ht data)⟩
  · exact ⟨by simp, .inr ⟨.unknownFormat, rfl⟩⟩

/-- C4 witness: with four concrete readers that never report incomplete
input, `parse_bytes` on a concrete buffer does not panic. -/
theorem C4_witness :
    parse_bytes indexed_reader raw64_reader raw32_reader text_reader
        indexed_magic_bytes ≠ .panicked ∧
    ((∃ p, parse_bytes indexed_reader raw64_reader raw32_reader text_reader
        indexed_magic_bytes = .ok p) ∨
      (∃ e, parse_bytes indexed_reader raw64_reader raw32_reader text_reader
        indexed_magic_bytes = .err e)) :=
  C4_parse_bytes_never_panics indexed_reader raw64_reader raw32_reader text_reader
    indexed_magic_bytes
    (by intro d; simp [indexed_reader])
    (by intro d; simp [raw64_reader])
    (by intro d; simp [raw32_reader])
    (by intro d; simp [text_reader])

/-- C6: merging a singleton list is the identity — the seed of the merge is
the first profile itself, and there is nothing further to fold in, so the
record sequence and the symbol table are returned unchanged (and no
overflow is reported). -/
theorem C6_merge_singleton_identity (p : InstrumentationProfile) :
    merge_profiles [p] = .ok (p, false) := rfl

/-- C8: the text format is selected exactly when the input is recognized as
none of indexed, raw64 and raw32, and its first non-space byte is ASCII
printable and not a control byte. -/
theorem C8_text_detection_iff (data : List Nat) :
    detect_format indexed_has_format raw64_has_format raw32_has_format
        text_has_format data = some .text ↔
      (indexed_has_format data = false ∧ raw64_has_format data = false ∧
       raw32_has_format data = false ∧
       (first_non_space data).any is_text_start_byte = true) := by
  unfold detect_format
  by_cases h1 : indexed_has_format data = true <;>
    by_cases h2 : raw64_has_format data = true <;>
      by_cases h3 : raw32_has_format data = true <;>
        by_cases h4 : text_has_format data = true <;>
          simp_all [text_has_format]

/-- C9: the file entry point refines the byte entry point — when the
filesystem read succeeds `parse` returns exactly `parse_bytes` of the full
contents, and when it fails the I/O error propagates and the result does
not depend on any reader. -/
theorem C9_parse_refines_parse_bytes (fs : String → Except String (List Nat))
    (i r6 r3 t : InstrProfReader) (path : String) :
    (∀ buf, fs path = .ok buf →
      parse fs i r6 r3 t path = parse_bytes i r6 r3 t buf) ∧
    (∀ e, fs path = .error e →
      parse fs i r6 r3 t path = .err (.ioSys e) ∧
      ∀ i' r6' r3' t', parse fs i' r6' r3' t' path = .err (.ioSys e)) := by
  constructor
  · intro buf hb
    simp [parse, hb]
  · intro e he
    exact ⟨by simp [parse, he], fun i' r6' r3' t' => by simp [parse, he]⟩

/-- A concrete two-file filesystem oracle. -/
def sample_fs (path : String) : Except String (List Nat) :=
  if path == "a.profdata" then .ok indexed_magic_bytes else .error "not found"

/-- C9 witness: on the concrete oracle, a successful read hands the whole
buffer to `parse_bytes`, and a failed open propagates the I/O error. -/
theorem C9_witness :
    parse sample_fs indexed_reader raw64_reader raw32_reader text_reader
        "a.profdata" =
      parse_bytes indexed_reader raw64_reader raw32_reader text_reader
        indexed_magic_bytes ∧
    parse sample_fs indexed_reader raw64_reader raw32_reader text_reader
        "missing" = .err (.ioSys "not found") :=
  ⟨(C9_parse_refines_parse_bytes sample_fs indexed_reader raw64_reader raw32_reader
      text_reader "a.profdata").1 indexed_magic_bytes rfl,
   ((C9_parse_refines_parse_bytes sample_fs indexed_reader raw64_reader raw32_reader
      text_reader "missing").2 "not found" rfl).1⟩

/-- C10: `parse_bytes` does not require full consumption — when the selected
reader succeeds with a non-empty unparsed remainder, the profile is still
returned and the remainder discarded. -/
theorem C10_trailing_bytes_discarded (i r6 r3 t : InstrProfReader)
    (data rest : List Nat) (p : InstrumentationProfile) (f : ProfFormat)
    (hdet : detect_format i.hasFormat r6.hasFormat r3.hasFormat t.hasFormat data =
      some f)
    (hok : (reader_for i r6 r3 t f).parseBytes data = .ok (rest, p))
    (hne : rest ≠ []) :
    parse_bytes i r6 r3 t data = .ok p := by
  rw [parse_bytes_eq_detect, hdet]
  simp [hok, map_nom_result]

/-- C10 witness: a text reader that leaves one trailing byte unparsed still
produces the profile. -/
theorem C10_witness :
    parse_bytes indexed_reader raw64_reader raw32_reader leftover_text_reader
        [0x66] = .ok sample_profile :=
  C10_trailing_bytes_discarded indexed_reader raw64_reader raw32_reader
    leftover_text_reader [0x66] [0x0a] sample_profile .text
    (by decide) rfl (by decide)

/-! ## Saturation lemmas for the merger -/

theorem sat_add_fst_le (a b : Nat) : (sat_add a b).1 ≤ U64_MAX := by
  unfold sat_add
  split_ifs with h <;> simp <;> omega

theorem merge_counter_lists_le (xs : List Nat) :
    ∀ ys, ∀ c ∈ (merge_counter_lists xs ys).1, c ≤ U64_MAX := by
  induction xs with
  | nil =>
      intro ys c hc
      simp [merge_counter_lists] at hc
  | cons x xs ih =>
      intro ys c hc
      cases ys with
      | nil => simp [merge_counter_lists] at hc
      | cons y ys =>
          simp only [merge_counter_lists, List.mem_cons] at hc
          rcases hc with rfl | hc
          · exact sat_add_fst_le x y
          · exact ih ys c hc

theorem merge_record_counters_le (r1 r2 : NamedInstrProfRecord)
    (m : NamedInstrProfRecord) (o : Bool) (h : merge_record r1 r2 = .ok (m, o)) :
    ∀ c ∈ m.counters, c ≤ U64_MAX := by
  unfold merge_record at h
  by_cases hl : r1.counters.length = r2.counters.length
  · rw [if_neg (by omega)] at h
    simp only [Except.ok.injEq, Prod.mk.injEq] at h
    obtain ⟨hm, _⟩ := h
    subst hm
    exact merge_counter_lists_le _ _
  · rw [if_pos (by omega)] at h
    simp at h

theorem insert_record_counters_le (recs : List NamedInstrProfRecord) :
    ∀ (r : NamedInstrProfRecord) rs' (o : Bool),
    insert_record recs r = .ok (rs', o) →
    (∀ rec ∈ recs, ∀ c ∈ rec.counters, c ≤ U64_MAX) →
    (∀ c ∈ r.counters, c ≤ U64_MAX) →
    ∀ rec ∈ rs', ∀ c ∈ rec.counters, c ≤ U64_MAX := by
  induction recs with
  | nil =>
      intro r rs' o h hrecs hr
      simp only [insert_record, Except.ok.injEq, Prod.mk.injEq] at h
      obtain ⟨hm, _⟩ := h
      subst hm
      intro rec hrec
      simp only [List.mem_singleton] at hrec
      subst hrec
      exact hr
  | cons r0 rest ih =>
      intro r rs' o h hrecs hr
      unfold insert_record at h
      split_ifs at h with hkey
      · cases hm : merge_record r0 r with
        | error e => rw [hm] at h; simp [Except.map] at h
        | ok m =>
            rw [hm] at h
            simp only [Except.map, Except.ok.injEq, Prod.mk.injEq] at h
            obtain ⟨h1, _⟩ := h
            subst h1
            intro rec hrec
            rcases List.mem_cons.mp hrec with rfl | hmem
            · exact merge_record_counters_le r0 r m.1 m.2 hm
            · exact hrecs rec (List.mem_cons_of_mem _ hmem)
      · cases hi : insert_record rest r with
        | error e => rw [hi] at h; simp [Except.map] at h
        | ok m =>
            rw [hi] at h
            simp only [Except.map, Except.ok.injEq, Prod.mk.injEq] at h
            obtain ⟨h1, _⟩ := h
            subst h1
            intro rec hrec
            rcases List.mem_cons.mp hrec with rfl | hmem
            · exact hrecs rec (List.mem_cons_self _ _)
            · exact ih r m.1 m.2 (by rw [hi]) (fun a ha => hrecs a (List.mem_cons_of_mem _ ha))
                hr rec hmem

theorem foldlM_fold_insert_counters_le (incoming : List NamedInstrProfRecord) :
    ∀ (st res : List NamedInstrProfRecord × Bool),
    incoming.foldlM fold_insert st = .ok res →
    (∀ rec ∈ st.1, ∀ c ∈ rec.counters, c ≤ U64_MAX) →
    (∀ r ∈ incoming, ∀ c ∈ r.counters, c ≤ U64_MAX) →
    ∀ rec ∈ res.1, ∀ c ∈ rec.counters, c ≤ U64_MAX := by
  induction incoming with
  | nil =>
      intro st res h hst _
      simp only [List.foldlM_nil, pure, Except.pure, Except.ok.injEq] at h
      subst h
      exact hst
  | cons r rest ih =>
      intro st res h hst hin
      rw [List.foldlM_cons] at h
      cases hi : insert_record st.1 r with
      | error e =>
          rw [show fold_insert st r = .error e by simp [fold_insert, hi, Except.map]] at h
          simp [Bind.bind, Except.bind] at h
      | ok m =>
          rw [show fold_insert st r = .ok (m.1, st.2 || m.2) by
            simp [fold_insert, hi, Except.map]] at h
          simp only [Bind.bind, Except.bind] at h
          refine ih (m.1, st.2 || m.2) res h ?_ (fun a ha => hin a (List.mem_cons_of_mem _ ha))
          exact insert_record_counters_le st.1 r m.1 m.2 (by rw [hi]) hst
            (hin r (List.mem_cons_self _ _))

theorem merge_profile_into_counters_le (acc out : InstrumentationProfile × Bool)
    (p : InstrumentationProfile) (h : merge_profile_into acc p = .ok out)
    (hacc : ∀ rec ∈ acc.1.records, ∀ c ∈ rec.counters, c ≤ U64_MAX)
    (hp : profile_wf p) :
    ∀ rec ∈ out.1.records, ∀ c ∈ rec.counters, c ≤ U64_MAX := by
  unfold merge_profile_into at h
  by_cases hc : compatible_flags acc.1.version p.version = true
  · rw [if_neg (not_not_intro hc)] at h
    cases hf : p.records.foldlM fold_insert (acc.1.records, false) with
    | error e => rw [hf] at h; simp [Except.map] at h
    | ok m =>
        rw [hf] at h
        simp only [Except.map, Except.ok.injEq] at h
        subst h
        intro rec hrec
        exact foldlM_fold_insert_counters_le p.records (acc.1.records, false) m hf
          hacc hp rec hrec
  · rw [if_pos hc] at h
    simp at h

theorem foldlM_merge_counters_le (rest : List InstrumentationProfile) :
    ∀ (acc res : InstrumentationProfile × Bool),
    rest.foldlM merge_profile_into acc = .ok res →
    (∀ rec ∈ acc.1.records, ∀ c ∈ rec.counters, c ≤ U64_MAX) →
    (∀ p ∈ rest, profile_wf p) →
    ∀ rec ∈ res.1.records, ∀ c ∈ rec.counters, c ≤ U64_MAX := by
  induction rest with
  | nil =>
      intro acc res h hacc _
      simp only [List.foldlM_nil, pure, Except.pure, Except.ok.injEq] at h
      subst h
      exact hacc
  | cons p rest ih =>
      intro acc res h hacc hps
      rw [List.foldlM_cons] at h
      cases hm : merge_profile_into acc p with
      | error e => rw [hm] at h; simp [Bind.bind, Except.bind] at h
      | ok acc' =>
          rw [hm] at h
          simp only [Bind.bind, Except.bind] at h
          exact ih acc' res h
            (merge_profile_into_counters_le acc acc' p hm hacc
              (hps p (List.mem_cons_self _ _)))
            (fun q hq => hps q (List.mem_cons_of_mem _ hq))

/-- C5: merged counters saturate at `u64::MAX` instead of wrapping — every
counter of a merged profile is at most `u64::MAX`, `sat_add(u64::MAX, k)`
is `u64::MAX` for every `k`, an addition past the ceiling yields the
ceiling together with the overflow indicator, and an overflow never fails a
record merge (only a counter-count mismatch does). -/
theorem C5_merge_saturates :
    (∀ k, (sat_add U64_MAX k).1 = U64_MAX) ∧
    (∀ a b, (sat_add a b).1 ≤ U64_MAX) ∧
    (∀ a b, U64_MAX < a + b → sat_add a b = (U64_MAX, true)) ∧
    (∀ r1 r2 : NamedInstrProfRecord, r1.counters.length = r2.counters.length →
      ∃ m, merge_record r1 r2 = .ok m) ∧
    (∀ ps out flag, merge_profiles ps = .ok (out, flag) →
      (∀ p ∈ ps, profile_wf p) → profile_wf out) := by
  refine ⟨?_, sat_add_fst_le, ?_, ?_, ?_⟩
  · intro k
    unfold sat_add
    split_ifs with h <;> simp <;> omega
  · intro a b h
    simp [sat_add, h]
  · intro r1 r2 hl
    refine ⟨({ r1 with counters := (merge_counter_lists r1.counters r2.counters).1,
                       valueSites := (merge_kinds r1.valueSites r2.valueSites).1 },
              ((merge_counter_lists r1.counters r2.counters).2 ||
                (merge_kinds r1.valueSites r2.valueSites).2)), ?_⟩
    unfold merge_record
    rw [if_neg (by omega)]
  · intro ps out flag h hwf
    cases ps with
    | nil => simp [merge_profiles] at h
    | cons p rest =>
        exact foldlM_merge_counters_le rest (p, false) (out, flag) h
          (hwf p (List.mem_cons_self _ _))
          (fun q hq => hwf q (List.mem_cons_of_mem _ hq))

/-- Spec scenario 2: two profiles with record `bar`, counters
`[u64::MAX - 10, 10]` each. -/
def overflow_profile : InstrumentationProfile :=
  { version := 0, symtab := [(1, "bar")],
    records := [{ name := "bar", hash := 1, counters := [U64_MAX - 10, 10],
                  valueSites := [] }] }

/-- The result of merging `overflow_profile` with itself: the first counter
saturates at the ceiling, the second doubles. -/
def overflow_merged : InstrumentationProfile :=
  { version := 0, symtab := [(1, "bar")],
    records := [{ name := "bar", hash := 1, counters := [U64_MAX, 20],
                  valueSites := [] }] }

theorem overflow_profile_wf : profile_wf overflow_profile := by
  intro r hr c hc
  simp only [overflow_profile, List.mem_singleton] at hr
  subst hr
  simp only [List.mem_cons, List.not_mem_nil, or_false] at hc
  rcases hc with rfl | rfl
  · exact Nat.sub_le _ _
  · norm_num [U64_MAX]

/-- C5 witness: saturation at the ceiling, and counter-boundedness of the
concrete overflowing merge of spec scenario 2. -/
theorem C5_witness :
    (sat_add U64_MAX 7).1 = U64_MAX ∧
    sat_add (U64_MAX - 10) (U64_MAX - 10) = (U64_MAX, true) ∧
    profile_wf overflow_merged :=
  ⟨C5_merge_saturates.1 7,
   C5_merge_saturates.2.2.1 (U64_MAX - 10) (U64_MAX - 10) (by norm_num [U64_MAX]),
   C5_merge_saturates.2.2.2.2 [overflow_profile, overflow_profile]
     overflow_merged true rfl
     (by
       intro p hp
       rcases List.mem_cons.mp hp with rfl | hp
       · exact overflow_profile_wf
       · rcases List.mem_cons.mp hp with rfl | hp
         · exact overflow_profile_wf
         · cases hp)⟩

/-! ## Text round-trip lemmas -/

theorem parse_nums_map (xs : List Nat) : ∀ tl,
    parse_nums xs.length (xs.map TextLine.num ++ tl) = .ok (xs, tl) := by
  induction xs with
  | nil => intro tl; simp [parse_nums]
  | cons x xs ih => intro tl; simp [parse_nums, ih, Except.map]

theorem parse_pairs_map (s : List (Nat × Nat)) : ∀ tl,
    parse_pairs s.length ((s.map (fun p => TextLine.pair p.1 p.2)) ++ tl) =
      .ok (s, tl) := by
  induction s with
  | nil => intro tl; simp [parse_pairs]
  | cons p rest ih => intro tl; simp [parse_pairs, ih, Except.map]

theorem parse_site_write (s : List (Nat × Nat)) (tl : List TextLine) :
    parse_site (write_site s ++ tl) = .ok (s, tl) := by
  simp [write_site, parse_site, parse_pairs_map]

theorem parse_sites_write (sites : List (List (Nat × Nat))) : ∀ tl,
    parse_sites sites.length ((sites.map write_site).flatten ++ tl) =
      .ok (sites, tl) := by
  induction sites with
  | nil => intro tl; simp [parse_sites]
  | cons s rest ih =>
      intro tl
      simp only [List.map_cons, List.flatten_cons, List.append_assoc, List.length_cons]
      simp [parse_sites, parse_site_write, ih, Except.map]

theorem parse_kinds_write (vs : List (List (List (Nat × Nat)))) : ∀ k tl,
    parse_kinds vs.length k (write_kinds k vs ++ tl) = .ok (vs, tl) := by
  induction vs with
  | nil => intro k tl; simp [write_kinds, parse_kinds]
  | cons sites rest ih =>
      intro k tl
      simp only [write_kinds, List.cons_append, List.append_assoc, List.length_cons]
      simp [parse_kinds, parse_sites_write, ih, Except.map]

theorem parse_record_write (r : NamedInstrProfRecord) (tl : List TextLine) :
    parse_record (write_record r ++ tl) = .ok (r, tl) := by
  simp only [write_record, List.cons_append, List.append_assoc, List.singleton_append]
  simp [parse_record, parse_nums_map, parse_kinds_write, Except.map]

theorem write_record_length_pos (r : NamedInstrProfRecord) :
    1 ≤ (write_record r).length := by
  simp [write_record]

theorem flatten_write_records_length (rs : List NamedInstrProfRecord) :
    rs.length ≤ ((rs.map write_record).flatten).length := by
  induction rs with
  | nil => simp
  | cons r rest ih =>
      simp only [List.map_cons, List.flatten_cons, List.length_append, List.length_cons]
      have := write_record_length_pos r
      omega

theorem parse_records_write (rs : List NamedInstrProfRecord) : ∀ fuel,
    rs.length ≤ fuel →
    parse_records fuel ((rs.map write_record).flatten) = .ok rs := by
  induction rs with
  | nil => intro fuel _; cases fuel <;> simp [parse_records]
  | cons r rest ih =>
      intro fuel hf
      cases fuel with
      | zero => simp at hf
      | succ f =>
          simp only [List.map_cons, List.flatten_cons]
          have step : parse_records (f + 1)
              (write_record r ++ (rest.map write_record).flatten) =
                match parse_record (write_record r ++ (rest.map write_record).flatten) with
                | .error e => .error e
                | .ok (rr, rest2) =>
                    (parse_records f rest2).map (fun l => rr :: l) := rfl
          rw [step, parse_record_write r ((rest.map write_record).flatten)]
          simp only [List.length_cons] at hf
          simp [ih f (by omega), Except.map]

theorem parse_directives_stop (v : Nat) (ls : List TextLine)
    (h : ∀ d tl, ls ≠ TextLine.directive d :: tl) :
    parse_directives ls v = .ok (v, ls) := by
  cases ls with
  | nil => rfl
  | cons hd tlt =>
      cases hd with
      | directive d => exact absurd rfl (h d tlt)
      | fname s => rfl
      | num n => rfl
      | num2 a b => rfl
      | pair a b => rfl
      | blank => rfl

theorem parse_directives_ir (ls : List TextLine) (v : Nat) :
    parse_directives (TextLine.directive ":ir" :: ls) v =
      parse_directives ls (v ||| 2 ^ 56) := by
  simp [parse_directives, apply_directive]

theorem parse_directives_csir (ls : List TextLine) (v : Nat) :
    parse_directives (TextLine.directive ":csir" :: ls) v =
      parse_directives ls (v ||| 2 ^ 57) := by
  simp [parse_directives, apply_directive]

theorem parse_directives_entry (ls : List TextLine) (v : Nat) :
    parse_directives (TextLine.directive ":entry_first" :: ls) v =
      parse_directives ls (v ||| 2 ^ 58) := by
  simp [parse_directives, apply_directive]

theorem parse_directives_append (v : Nat) (rest : List TextLine)
    (hrest : ∀ d tl, rest ≠ TextLine.directive d :: tl) :
    ∃ v', parse_directives (write_directives v ++ rest) 0 = .ok (v', rest) ∧
      v'.testBit 56 = v.testBit 56 ∧ v'.testBit 57 = v.testBit 57 := by
  rcases h56 : v.testBit 56 <;> rcases h57 : v.testBit 57 <;> rcases h58 : v.testBit 58 <;>
    simp [write_directives, h56, h57, h58]
  · exact ⟨0, parse_directives_stop 0 rest hrest, by decide, by decide⟩
  · exact ⟨0 ||| 2 ^ 58,
      by rw [parse_directives_entry, parse_directives_stop _ rest hrest],
      by decide, by decide⟩
  · exact ⟨0 ||| 2 ^ 57,
      by rw [parse_directives_csir, parse_directives_stop _ rest hrest],
      by decide, by decide⟩
  · exact ⟨0 ||| 2 ^ 57 ||| 2 ^ 58,
      by rw [parse_directives_csir, parse_directives_entry,
        parse_directives_stop _ rest hrest],
      by decide, by decide⟩
  · exact ⟨0 ||| 2 ^ 56,
      by rw [parse_directives_ir, parse_directives_stop _ rest hrest],
      by decide, by decide⟩
  · exact ⟨0 ||| 2 ^ 56 ||| 2 ^ 58,
      by rw [parse_directives_ir, parse_directives_entry,
        parse_directives_stop _ rest hrest],
      by decide, by decide⟩
  · exact ⟨0 ||| 2 ^ 56 ||| 2 ^ 57,
      by rw [parse_directives_ir, parse_directives_csir,
        parse_directives_stop _ rest hrest],
      by decide, by decide⟩
  · exact ⟨0 ||| 2 ^ 56 ||| 2 ^ 57 ||| 2 ^ 58,
      by rw [parse_directives_ir, parse_directives_csir, parse_directives_entry,
        parse_directives_stop _ rest hrest],
      by decide, by decide⟩

/-- C7: text rendering round-trips — rendering any profile to the text
format and re-parsing it yields a profile with the same IR-level flag, the
same CSIR flag, and the same record sequence (hence the same record set),
for any choice of the name-hash function used to rebuild the symtab. -/
theorem C7_text_round_trip (hash : String → Nat) (p : InstrumentationProfile) :
    ∃ q, parse_text hash (write_text p) = .ok q ∧
      q.is_ir_level_profile = p.is_ir_level_profile ∧
      q.has_csir_level_profile = p.has_csir_level_profile ∧
      q.records = p.records := by
  have hrest : ∀ d tl,
      (p.records.map write_record).flatten ≠ TextLine.directive d :: tl := by
    cases p.records with
    | nil => intro d tl; simp
    | cons r rs =>
        intro d tl h
        rw [List.map_cons, List.flatten_cons] at h
        simp only [write_record, List.cons_append] at h
        exact TextLine.noConfusion (List.cons.inj h).1
  obtain ⟨v', hpd, h56, h57⟩ :=
    parse_directives_append p.version ((p.records.map write_record).flatten) hrest
  refine ⟨{ version := v',
            symtab := p.records.map (fun r => (hash r.name, r.name)),
            records := p.records }, ?_, ?_, ?_, rfl⟩
  · unfold parse_text
    rw [show write_text p =
        write_directives p.version ++ (p.records.map write_record).flatten from rfl]
    rw [hpd]
    show Except.map
        (fun rs => ({ version := v',
                      symtab := rs.map (fun r => (hash r.name, r.name)),
                      records := rs } : InstrumentationProfile))
        (parse_records (((p.records.map write_record).flatten).length + 1)
          ((p.records.map write_record).flatten)) =
      Except.ok ({ version := v',
                   symtab := p.records.map (fun r => (hash r.name, r.name)),
                   records := p.records } : InstrumentationProfile)
    rw [parse_records_write p.records (((p.records.map write_record).flatten).length + 1)
      (by have := flatten_write_records_length p.records; omega)]
    rfl
  · simpa [InstrumentationProfile.is_ir_level_profile] using h56
  · simpa [InstrumentationProfile.has_csir_level_profile] using h57

end LlvmProfparser
